import Mathlib

/-!
Verification development for the keyword-research filter/sort/aggregate engine
(`src/App.tsx`).  The definitions below are a shallow embedding of the core
logic: the `Keyword` record, the filter state (range bound strings, intent
checkboxes, include/exclude term filters), the filter evaluator
(`filteredKeywords`), the sort comparator (`sortedKeywords`), and the
aggregator (`totalVolume` / `averageKD`).

JavaScript numeric conventions are made explicit:
* `parseInt` / `parseFloat` return `Option` (`none` models `NaN`);
* a range bound that is the empty string is modelled as `±∞`, a non-empty
  unparsable bound as `NaN` (`JSNum.nan`), whose comparisons are all false;
* `Math.round x` is `⌊x + 1/2⌋` (round half toward `+∞`);
* exact rational arithmetic stands in for IEEE doubles (all claims here are
  about small integral values where double arithmetic is exact).
-/

namespace KeywordApp

/-- The `Keyword` record (interface `Keyword` in `App.tsx`): `volume` is kept
as the raw display string; `kd`, `cpc`, `trafficPotential` are pre-parsed at
ingestion (`parseInt`/`parseFloat` with fallback `0`). -/
structure Keyword where
  keyword : String
  intent : String
  volume : String
  kd : Int
  cpc : Rat
  trafficPotential : Int
  parentKeyword : String
deriving DecidableEq, Repr

/-- `KeywordFilter.type` in `App.tsx`: `'all' | 'any'`. -/
inductive MatchType where
  | all
  | any
deriving DecidableEq, Repr

/-- The include/exclude filter value (interface `KeywordFilter`). -/
structure KeywordFilter where
  type : MatchType
  keywords : List String
deriving DecidableEq, Repr

/-- The four intent checkboxes (`selectedIntents` state). -/
structure SelectedIntents where
  informational : Bool
  transactional : Bool
  commercial : Bool
  navigational : Bool
deriving DecidableEq, Repr

/-- The pieces of component state read by `filteredKeywords`: the ten raw
range-bound strings, the intent checkboxes and the two term filters. -/
structure FilterState where
  minVolume : String
  maxVolume : String
  minKD : String
  maxKD : String
  minCPC : String
  maxCPC : String
  minWordCount : String
  maxWordCount : String
  minTrafficPotential : String
  maxTrafficPotential : String
  selectedIntents : SelectedIntents
  includeFilter : KeywordFilter
  excludeFilter : KeywordFilter
deriving DecidableEq, Repr

/-! ### JavaScript string and number primitives -/

/-- Whitespace as recognised by JS (`\s`, restricted to the ASCII classes that
can occur in this data). -/
def isWsJS (c : Char) : Bool :=
  c == ' ' || c == '\t' || c == '\n' || c == '\r' || c == '\x0b' || c == '\x0c'

/-- `String.prototype.trim` on the character list. -/
def trimJS (cs : List Char) : List Char :=
  ((cs.dropWhile isWsJS).reverse.dropWhile isWsJS).reverse

/-- `str.startsWith(needle)` on character lists. -/
def startsWithChars : List Char → List Char → Bool
  | _, [] => true
  | [], _ :: _ => false
  | h :: hs, n :: ns => h == n && startsWithChars hs ns

/-- `str.includes(needle)` on character lists. -/
def containsChars : List Char → List Char → Bool
  | [], needle => needle.isEmpty
  | c :: hs, needle => startsWithChars (c :: hs) needle || containsChars hs needle

/-- `hay.includes(sub)` (case-sensitive substring containment). -/
def strIncludes (hay sub : String) : Bool :=
  containsChars hay.toList sub.toList

/-- `str.toLowerCase()` (ASCII range; the claims only involve ASCII data). -/
def toLowerJS (s : String) : String :=
  ⟨s.toList.map Char.toLower⟩

/-- Numeric value of a digit list in base `b` with digit valuation `f`. -/
def digitsToNat (b : Nat) (f : Char → Nat) (ds : List Char) : Nat :=
  ds.foldl (fun a c => a * b + f c) 0

/-- Decimal digit value. -/
def charDigitVal (c : Char) : Nat := c.toNat - '0'.toNat

/-- Hexadecimal digit predicate (for `parseInt`'s automatic `0x` radix). -/
def isHexDigitJS (c : Char) : Bool :=
  c.isDigit || (decide ('a' ≤ c) && decide (c ≤ 'f')) || (decide ('A' ≤ c) && decide (c ≤ 'F'))

/-- Hexadecimal digit value. -/
def hexDigitVal (c : Char) : Nat :=
  if c.isDigit then c.toNat - '0'.toNat
  else if decide ('a' ≤ c) && decide (c ≤ 'f') then c.toNat - 'a'.toNat + 10
  else c.toNat - 'A'.toNat + 10

/-- Optional leading sign of a JS numeric literal. -/
def parseSign : List Char → Int × List Char
  | '-' :: rest => (-1, rest)
  | '+' :: rest => (1, rest)
  | cs => (1, cs)

/-- Model of JS `parseInt(s)` (radix inferred: `0x`/`0X` prefix means base 16,
otherwise base 10): skip leading whitespace, optional sign, then the longest
prefix of digits; `none` models the `NaN` result when no digit is found. -/
def parseIntJS (s : String) : Option Int :=
  let cs0 := s.toList.dropWhile isWsJS
  let scs := parseSign cs0
  let hex : Bool :=
    match scs.2 with
    | '0' :: c :: _ => c == 'x' || c == 'X'
    | _ => false
  if hex then
    let ds := (scs.2.drop 2).takeWhile isHexDigitJS
    if ds.isEmpty then none else some (scs.1 * (digitsToNat 16 hexDigitVal ds : Nat))
  else
    let ds := scs.2.takeWhile Char.isDigit
    if ds.isEmpty then none else some (scs.1 * (digitsToNat 10 charDigitVal ds : Nat))

/-- `10 ^ e` for an integer exponent, as a rational. -/
def pow10 (e : Int) : Rat :=
  if 0 ≤ e then ((10 : Rat) ^ e.toNat) else 1 / ((10 : Rat) ^ (-e).toNat)

/-- Exponent part of a JS float literal (`e`/`E`, optional sign, digits);
an incomplete exponent contributes nothing (`parseFloat` keeps the longest
valid prefix). -/
def parseExponent (cs : List Char) : Int :=
  match cs with
  | c :: rest =>
    if c == 'e' || c == 'E' then
      let srest := parseSign rest
      let ds := srest.2.takeWhile Char.isDigit
      if ds.isEmpty then 0 else srest.1 * (digitsToNat 10 charDigitVal ds : Nat)
    else 0
  | [] => 0

/-- The finite-number part of JS `parseFloat(s)`: skip leading whitespace,
optional sign, `digits [. digits] [exponent]`; `none` when no such prefix
exists.  The `Infinity` literal of `parseFloat` is handled separately by
`parseFloatFull` (it is not a finite value), so `none` here means the result
is `NaN` or `±Infinity`. -/
def parseFloatJS (s : String) : Option Rat :=
  let cs0 := s.toList.dropWhile isWsJS
  let scs := parseSign cs0
  let ip := scs.2.takeWhile Char.isDigit
  let rest := scs.2.dropWhile Char.isDigit
  let fpr : List Char × List Char :=
    match rest with
    | c :: r => if c = '.' then (r.takeWhile Char.isDigit, r.dropWhile Char.isDigit) else ([], rest)
    | [] => ([], rest)
  if ip.isEmpty && fpr.1.isEmpty then none
  else
    let mant : Rat :=
      (digitsToNat 10 charDigitVal ip : Nat) +
        (digitsToNat 10 charDigitVal fpr.1 : Nat) / ((10 : Rat) ^ fpr.1.length)
    some ((scs.1 : Rat) * mant * pow10 (parseExponent fpr.2))

/-- The characters of the JS `Infinity` literal. -/
def infinityChars : List Char := ['I', 'n', 'f', 'i', 'n', 'i', 't', 'y']

/-- Whether the string is the (signed) JS `Infinity` literal: after leading
whitespace and an optional sign, the remainder starts with `Infinity`
(`parseFloat` takes the longest valid prefix, so trailing characters are
ignored; the match is case-sensitive, as in JS). -/
def isInfLiteral (s : String) : Bool :=
  startsWithChars (parseSign (s.toList.dropWhile isWsJS)).2 infinityChars

/-- `parseInt(volume.replace(/,/g, '')) || 0`: thousands separators removed,
`NaN` falling back to `0`. -/
def parseVolume (s : String) : Int :=
  (parseIntJS ⟨s.toList.filter (fun c => c != ',')⟩).getD 0

/-- `keyword.trim().split(/\s+/).length`.  JS `"".split(/\s+/)` is `[""]`
(length 1), which is why a blank keyword counts as 1; a non-empty trimmed
string splits at each whitespace character with empty pieces discarded
(collapsing whitespace runs, exactly what the regex `\s+` does). -/
def getWordCount (s : String) : Nat :=
  let t := trimJS s.toList
  if t.isEmpty then 1 else ((t.splitOnP isWsJS).filter (fun r => !r.isEmpty)).length

/-! ### JS numbers appearing as range bounds -/

/-- A JS number in a comparison position: `NaN`, `±Infinity`, or finite. -/
inductive JSNum where
  | nan
  | negInf
  | posInf
  | num (q : Rat)
deriving DecidableEq, Repr

/-- JS `x <= y`: any comparison involving `NaN` is false. -/
def JSNum.jsLe : JSNum → JSNum → Bool
  | .nan, _ => false
  | _, .nan => false
  | .negInf, _ => true
  | _, .posInf => true
  | .posInf, _ => false
  | .num _, .negInf => false
  | .num a, .num b => decide (a ≤ b)

/-- `minX ? parseInt(minX) : -Infinity` (empty string is the only falsy
bound value; an unparsable non-empty string is `NaN`). -/
def minBoundI (s : String) : JSNum :=
  if s = "" then .negInf else
    match parseIntJS s with
    | some n => .num (n : Rat)
    | none => .nan

/-- `maxX ? parseInt(maxX) : Infinity`. -/
def maxBoundI (s : String) : JSNum :=
  if s = "" then .posInf else
    match parseIntJS s with
    | some n => .num (n : Rat)
    | none => .nan

/-- The full result of JS `parseFloat(s)` as a comparison value: the
`Infinity` literal yields `+Infinity` (or `-Infinity` with a leading minus
sign), a finite literal yields its value, and anything else is `NaN`. -/
def parseFloatFull (s : String) : JSNum :=
  if isInfLiteral s then
    (if (parseSign (s.toList.dropWhile isWsJS)).1 = 1 then .posInf else .negInf)
  else
    match parseFloatJS s with
    | some q => .num q
    | none => .nan

/-- `minCPC ? parseFloat(minCPC) : -Infinity`. -/
def minBoundF (s : String) : JSNum :=
  if s = "" then .negInf else parseFloatFull s

/-- `maxCPC ? parseFloat(maxCPC) : Infinity`. -/
def maxBoundF (s : String) : JSNum :=
  if s = "" then .posInf else parseFloatFull s

/-- `v >= lo && v <= hi` for a finite record value `v` and JS bounds. -/
def inRangeQ (v : Rat) (lo hi : JSNum) : Bool :=
  JSNum.jsLe lo (.num v) && JSNum.jsLe (.num v) hi

/-! ### The three non-range dimensions -/

/-- `Object.values(selectedIntents).some(v => v)`. -/
def anyIntentSelected (si : SelectedIntents) : Bool :=
  si.informational || si.transactional || si.commercial || si.navigational

/-- The `intentMatch` expression of `filteredKeywords`. -/
def intentMatch (si : SelectedIntents) (k : Keyword) : Bool :=
  !anyIntentSelected si ||
    ((si.informational && strIncludes k.intent "I") ||
     (si.transactional && strIncludes k.intent "T") ||
     (si.commercial && strIncludes k.intent "C") ||
     (si.navigational && strIncludes k.intent "N"))

/-- Case-insensitive containment of term `t` in the record's keyword, as in
`keyword.keyword.toLowerCase().includes(k.toLowerCase())`. -/
def termHit (k : Keyword) (t : String) : Bool :=
  strIncludes (toLowerJS k.keyword) (toLowerJS t)

/-- The `includeMatch` expression of `filteredKeywords`. -/
def includeMatch (f : KeywordFilter) (k : Keyword) : Bool :=
  f.keywords.isEmpty ||
    (match f.type with
     | .all => f.keywords.all (termHit k)
     | .any => f.keywords.any (termHit k))

/-- The `excludeMatch` expression of `filteredKeywords` (the negation of the
same ALL/ANY containment test). -/
def excludeMatch (f : KeywordFilter) (k : Keyword) : Bool :=
  f.keywords.isEmpty ||
    (match f.type with
     | .all => !f.keywords.all (termHit k)
     | .any => !f.keywords.any (termHit k))

/-! ### The filter evaluator and pipeline stages -/

/-- The predicate body of `keywords.filter(...)` in `App.tsx`, conjunct for
conjunct in source order. -/
def evaluateFilter (fs : FilterState) (k : Keyword) : Bool :=
  inRangeQ (parseVolume k.volume : Rat) (minBoundI fs.minVolume) (maxBoundI fs.maxVolume) &&
  inRangeQ (k.kd : Rat) (minBoundI fs.minKD) (maxBoundI fs.maxKD) &&
  inRangeQ k.cpc (minBoundF fs.minCPC) (maxBoundF fs.maxCPC) &&
  inRangeQ (getWordCount k.keyword : Rat) (minBoundI fs.minWordCount) (maxBoundI fs.maxWordCount) &&
  inRangeQ (k.trafficPotential : Rat) (minBoundI fs.minTrafficPotential) (maxBoundI fs.maxTrafficPotential) &&
  intentMatch fs.selectedIntents k &&
  includeMatch fs.includeFilter k &&
  excludeMatch fs.excludeFilter k

/-- `const filteredKeywords = keywords.filter(...)`. -/
def filteredKeywords (fs : FilterState) (l : List Keyword) : List Keyword :=
  l.filter (evaluateFilter fs)

/-! ### Sort comparator -/

/-- `type SortField` in `App.tsx`. -/
inductive SortField where
  | volume
  | kd
  | cpc
  | trafficPotential
deriving DecidableEq, Repr

/-- `type SortDirection`. -/
inductive SortDirection where
  | asc
  | desc
deriving DecidableEq, Repr

/-- The numeric value compared for a sort field: `volume` is parsed from the
display string exactly as in the filter path, the other fields are read from
the record. -/
def sortValue (f : SortField) (k : Keyword) : Rat :=
  match f with
  | .volume => (parseVolume k.volume : Rat)
  | .kd => (k.kd : Rat)
  | .cpc => k.cpc
  | .trafficPotential => (k.trafficPotential : Rat)

/-- The comparator passed to `sort`: `0` when no sort field is set, otherwise
the numeric difference for the field, negated for descending order. -/
def compareKeywords (sf : Option SortField) (dir : SortDirection) (a b : Keyword) : Rat :=
  match sf with
  | none => 0
  | some f =>
    match dir with
    | .asc => sortValue f a - sortValue f b
    | .desc => -(sortValue f a - sortValue f b)

/-- `const sortedKeywords = [...filteredKeywords].sort((a, b) => ...)`.
`Array.prototype.sort` is required to be stable and, for a consistent
comparator, orders so that `a` precedes `b` whenever `compare(a, b) ≤ 0`;
this is modelled by the stable `List.mergeSort` with that relation. -/
def sortedKeywords (sf : Option SortField) (dir : SortDirection) (l : List Keyword) : List Keyword :=
  l.mergeSort (fun a b => decide (compareKeywords sf dir a b ≤ 0))

/-! ### Aggregator -/

/-- `filteredKeywords.reduce((sum, item) => sum + (parseInt(item.volume.replace(...)) || 0), 0)`. -/
def totalVolume (l : List Keyword) : Int :=
  l.foldl (fun sum k => sum + parseVolume k.volume) 0

/-- JS `Math.round x = ⌊x + 1/2⌋` (round half toward `+∞`). -/
def jsMathRound (x : Rat) : Int :=
  Int.floor (x + 1 / 2)

/-- `averageKD`: `Math.round` of the difficulty sum over the count when the
filtered collection is non-empty, else `0`. -/
def averageKD (l : List Keyword) : Int :=
  if 0 < l.length then
    jsMathRound (((l.foldl (fun s k => s + k.kd) 0 : Int) : Rat) / (l.length : Rat))
  else 0

/-! ### Sample data used by the concrete parts of the claims -/

/-- A record with the given keyword, intent and volume string and zero
numeric fields. -/
def mkRec (kw intent vol : String) : Keyword :=
  ⟨kw, intent, vol, 0, 0, 0, ""⟩

/-- All intent checkboxes off. -/
def noIntents : SelectedIntents := ⟨false, false, false, false⟩

/-- The initial (all-inactive) filter state: empty bound strings, no intents,
empty include/exclude term lists (both default to mode `all`). -/
def emptyFilterState : FilterState :=
  ⟨"", "", "", "", "", "", "", "", "", "", noIntents, ⟨.all, []⟩, ⟨.all, []⟩⟩

/-- A filter state whose only active piece is an unparsable minimum-volume
bound string. -/
def fsBadMinVolume : FilterState := { emptyFilterState with minVolume := "abc" }

/-- A record used as a generic concrete input. -/
def kSample : Keyword := mkRec "sample keyword" "I" "100"

/-- A record with a given difficulty and zero everything else. -/
def kdRec (n : Int) : Keyword := { mkRec "k" "" "" with kd := n }

/-! ### Helper lemmas -/

lemma parseIntJS_empty : parseIntJS "" = none := by decide

lemma parseFloatJS_empty : parseFloatJS "" = none := by decide

lemma minBoundI_empty : minBoundI "" = .negInf := by simp [minBoundI]

lemma maxBoundI_empty : maxBoundI "" = .posInf := by simp [maxBoundI]

lemma minBoundF_empty : minBoundF "" = .negInf := by simp [minBoundF]

lemma maxBoundF_empty : maxBoundF "" = .posInf := by simp [maxBoundF]

lemma minBoundI_parsed {s : String} {n : Int} (h : parseIntJS s = some n) :
    minBoundI s = .num (n : Rat) := by
  have hne : s ≠ "" := by rintro rfl; rw [parseIntJS_empty] at h; cases h
  simp [minBoundI, hne, h]

lemma maxBoundI_parsed {s : String} {n : Int} (h : parseIntJS s = some n) :
    maxBoundI s = .num (n : Rat) := by
  have hne : s ≠ "" := by rintro rfl; rw [parseIntJS_empty] at h; cases h
  simp [maxBoundI, hne, h]

/-- A string recognised as the `Infinity` literal has no finite-number
prefix: after the sign it starts with `I`, which is neither a digit nor a
decimal point. -/
lemma isInfLiteral_parseFloatJS {s : String} (h : isInfLiteral s = true) :
    parseFloatJS s = none := by
  rcases hcs : (parseSign (s.toList.dropWhile isWsJS)).2 with _ | ⟨c, r⟩
  · rw [isInfLiteral, hcs] at h
    cases h
  · rw [isInfLiteral, hcs] at h
    have hc : c = 'I' := by
      by_contra hne
      simp [startsWithChars, infinityChars, hne] at h
    subst hc
    have hd : Char.isDigit 'I' = false := by decide
    have hcs' : (parseSign (List.dropWhile isWsJS s.data)).2 = 'I' :: r := hcs
    simp [parseFloatJS, hcs, hcs', List.takeWhile_cons, List.dropWhile_cons, hd]

lemma minBoundF_parsed {s : String} {q : Rat} (h : parseFloatJS s = some q) :
    minBoundF s = .num q := by
  have hne : s ≠ "" := by rintro rfl; rw [parseFloatJS_empty] at h; cases h
  have hinf : isInfLiteral s = false := by
    by_contra hcon
    rw [Bool.not_eq_false] at hcon
    rw [isInfLiteral_parseFloatJS hcon] at h
    cases h
  simp [minBoundF, parseFloatFull, hne, hinf, h]

lemma maxBoundF_parsed {s : String} {q : Rat} (h : parseFloatJS s = some q) :
    maxBoundF s = .num q := by
  have hne : s ≠ "" := by rintro rfl; rw [parseFloatJS_empty] at h; cases h
  have hinf : isInfLiteral s = false := by
    by_contra hcon
    rw [Bool.not_eq_false] at hcon
    rw [isInfLiteral_parseFloatJS hcon] at h
    cases h
  simp [maxBoundF, parseFloatFull, hne, hinf, h]

lemma minBoundI_nan {s : String} (hne : s ≠ "") (h : parseIntJS s = none) :
    minBoundI s = .nan := by simp [minBoundI, hne, h]

lemma maxBoundI_nan {s : String} (hne : s ≠ "") (h : parseIntJS s = none) :
    maxBoundI s = .nan := by simp [maxBoundI, hne, h]

lemma minBoundF_nan {s : String} (hne : s ≠ "") (hinf : isInfLiteral s = false)
    (h : parseFloatJS s = none) : minBoundF s = .nan := by
  simp [minBoundF, parseFloatFull, hne, hinf, h]

lemma maxBoundF_nan {s : String} (hne : s ≠ "") (hinf : isInfLiteral s = false)
    (h : parseFloatJS s = none) : maxBoundF s = .nan := by
  simp [maxBoundF, parseFloatFull, hne, hinf, h]

@[simp] lemma inRangeQ_nan_lo (v : Rat) (hi : JSNum) : inRangeQ v .nan hi = false := rfl

@[simp] lemma inRangeQ_nan_hi (v : Rat) (lo : JSNum) : inRangeQ v lo .nan = false := by
  simp [inRangeQ, JSNum.jsLe]

/-- A range check whose bound strings are each empty or parsable is the
two-sided inequality on the parsed bounds (an empty bound constrains
nothing). -/
lemma rangeI_iff (v : Rat) (smin smax : String)
    (hmin : smin = "" ∨ (parseIntJS smin).isSome)
    (hmax : smax = "" ∨ (parseIntJS smax).isSome) :
    (inRangeQ v (minBoundI smin) (maxBoundI smax) = true ↔
      ((∀ n : Int, parseIntJS smin = some n → (n : Rat) ≤ v) ∧
       (∀ n : Int, parseIntJS smax = some n → v ≤ (n : Rat)))) := by
  have hlo : (minBoundI smin = .negInf ∧ parseIntJS smin = none) ∨
      ∃ n : Int, minBoundI smin = .num (n : Rat) ∧ parseIntJS smin = some n := by
    rcases hmin with rfl | h
    · exact Or.inl ⟨minBoundI_empty, parseIntJS_empty⟩
    · obtain ⟨n, hn⟩ := Option.isSome_iff_exists.mp h
      exact Or.inr ⟨n, minBoundI_parsed hn, hn⟩
  have hhi : (maxBoundI smax = .posInf ∧ parseIntJS smax = none) ∨
      ∃ n : Int, maxBoundI smax = .num (n : Rat) ∧ parseIntJS smax = some n := by
    rcases hmax with rfl | h
    · exact Or.inl ⟨maxBoundI_empty, parseIntJS_empty⟩
    · obtain ⟨n, hn⟩ := Option.isSome_iff_exists.mp h
      exact Or.inr ⟨n, maxBoundI_parsed hn, hn⟩
  rcases hlo with ⟨e1, e2⟩ | ⟨n, e1, e2⟩ <;> rcases hhi with ⟨f1, f2⟩ | ⟨m, f1, f2⟩ <;>
    simp [inRangeQ, e1, e2, f1, f2, JSNum.jsLe]

/-- `rangeI_iff` for the `parseFloat` (CPC) bounds. -/
lemma rangeF_iff (v : Rat) (smin smax : String)
    (hmin : smin = "" ∨ (parseFloatJS smin).isSome)
    (hmax : smax = "" ∨ (parseFloatJS smax).isSome) :
    (inRangeQ v (minBoundF smin) (maxBoundF smax) = true ↔
      ((∀ q : Rat, parseFloatJS smin = some q → q ≤ v) ∧
       (∀ q : Rat, parseFloatJS smax = some q → v ≤ q))) := by
  have hlo : (minBoundF smin = .negInf ∧ parseFloatJS smin = none) ∨
      ∃ q : Rat, minBoundF smin = .num q ∧ parseFloatJS smin = some q := by
    rcases hmin with rfl | h
    · exact Or.inl ⟨minBoundF_empty, parseFloatJS_empty⟩
    · obtain ⟨q, hq⟩ := Option.isSome_iff_exists.mp h
      exact Or.inr ⟨q, minBoundF_parsed hq, hq⟩
  have hhi : (maxBoundF smax = .posInf ∧ parseFloatJS smax = none) ∨
      ∃ q : Rat, maxBoundF smax = .num q ∧ parseFloatJS smax = some q := by
    rcases hmax with rfl | h
    · exact Or.inl ⟨maxBoundF_empty, parseFloatJS_empty⟩
    · obtain ⟨q, hq⟩ := Option.isSome_iff_exists.mp h
      exact Or.inr ⟨q, maxBoundF_parsed hq, hq⟩
  rcases hlo with ⟨e1, e2⟩ | ⟨q, e1, e2⟩ <;> rcases hhi with ⟨f1, f2⟩ | ⟨r, f1, f2⟩ <;>
    simp [inRangeQ, e1, e2, f1, f2, JSNum.jsLe]

/-! ### Claim theorems -/

/-- C1: with exclude mode ALL and a non-empty term list, the exclude
dimension rejects a record exactly when every exclude term is
(case-insensitively) a substring of the keyword; with terms
`["free","trial"]`, keyword `"free trial offer"` is rejected while
`"free offer"` (only one term present) passes. -/
theorem exclude_all_semantics (k : Keyword) (terms : List String) (hne : terms ≠ []) :
    (excludeMatch ⟨.all, terms⟩ k = false ↔ ∀ t ∈ terms, termHit k t = true)
    ∧ excludeMatch ⟨.all, ["free", "trial"]⟩ (mkRec "free trial offer" "" "") = false
    ∧ excludeMatch ⟨.all, ["free", "trial"]⟩ (mkRec "free offer" "" "") = true := by
  refine ⟨?_, by decide, by decide⟩
  simp [excludeMatch, hne, List.all_eq_true]

/-- Witness for `exclude_all_semantics` at a concrete term list. -/
theorem exclude_all_semantics_witness :
    (["free", "trial"] : List String) ≠ []
    ∧ excludeMatch ⟨.all, ["free", "trial"]⟩ (mkRec "free trial offer" "" "") = false :=
  ⟨by decide,
    (exclude_all_semantics (mkRec "free trial offer" "" "") ["free", "trial"] (by decide)).2.1⟩

/-- C4: the empty filter state passes every record, and filtering any
collection with it returns the collection unchanged (identity element). -/
theorem empty_filter_identity (k : Keyword) (l : List Keyword) :
    evaluateFilter emptyFilterState k = true ∧ filteredKeywords emptyFilterState l = l := by
  have h : ∀ k' : Keyword, evaluateFilter emptyFilterState k' = true := by
    intro k'
    simp [evaluateFilter, emptyFilterState, noIntents, minBoundI, maxBoundI, minBoundF,
      maxBoundF, inRangeQ, JSNum.jsLe, intentMatch, anyIntentSelected, includeMatch,
      excludeMatch]
  exact ⟨h k, List.filter_eq_self.mpr fun a _ => h a⟩

/-- C6: with a non-empty term list the include dimension passes iff every
term (mode ALL) resp. at least one term (mode ANY) is case-insensitively
contained in the keyword; empty terms always pass; mode ALL with
`["seo","tool"]` passes `"best seo tool"` and fails `"seo guide"`. -/
theorem include_semantics (k : Keyword) (terms : List String) (m : MatchType)
    (hne : terms ≠ []) :
    (includeMatch ⟨.all, terms⟩ k = true ↔ ∀ t ∈ terms, termHit k t = true)
    ∧ (includeMatch ⟨.any, terms⟩ k = true ↔ ∃ t ∈ terms, termHit k t = true)
    ∧ includeMatch ⟨m, []⟩ k = true
    ∧ includeMatch ⟨.all, ["seo", "tool"]⟩ (mkRec "best seo tool" "" "") = true
    ∧ includeMatch ⟨.all, ["seo", "tool"]⟩ (mkRec "seo guide" "" "") = false := by
  refine ⟨?_, ?_, ?_, by decide, by decide⟩
  · simp [includeMatch, hne, List.all_eq_true]
  · simp [includeMatch, hne, List.any_eq_true]
  · cases m <;> simp [includeMatch]

/-- Witness for `include_semantics` at a concrete term list. -/
theorem include_semantics_witness :
    (["seo", "tool"] : List String) ≠ []
    ∧ includeMatch ⟨.all, ["seo", "tool"]⟩ (mkRec "best seo tool" "" "") = true :=
  ⟨by decide,
    (include_semantics (mkRec "best seo tool" "" "") ["seo", "tool"] .all (by decide)).2.2.2.1⟩

/-- C7: the intent dimension passes when no intent is selected; otherwise it
passes iff the record's intent string contains at least one selected code
(OR across the selected codes); `{I, C}` passes intent `"T,C"` and rejects
`"T,N"`. -/
theorem intent_semantics (si : SelectedIntents) (k : Keyword) :
    intentMatch noIntents k = true
    ∧ (anyIntentSelected si = true →
        (intentMatch si k = true ↔
          ((si.informational = true ∧ strIncludes k.intent "I" = true) ∨
           (si.transactional = true ∧ strIncludes k.intent "T" = true) ∨
           (si.commercial = true ∧ strIncludes k.intent "C" = true) ∨
           (si.navigational = true ∧ strIncludes k.intent "N" = true))))
    ∧ intentMatch ⟨true, false, true, false⟩ (mkRec "" "T,C" "") = true
    ∧ intentMatch ⟨true, false, true, false⟩ (mkRec "" "T,N" "") = false := by
  refine ⟨rfl, ?_, by decide, by decide⟩
  intro h
  simp [intentMatch, h, or_assoc]

/-- Witness for `intent_semantics` with intents `{I, C}` actually selected. -/
theorem intent_semantics_witness :
    intentMatch ⟨true, false, true, false⟩ (mkRec "" "T,C" "") = true ↔
      ((true = true ∧ strIncludes "T,C" "I" = true) ∨
       (false = true ∧ strIncludes "T,C" "T" = true) ∨
       (true = true ∧ strIncludes "T,C" "C" = true) ∨
       (false = true ∧ strIncludes "T,C" "N" = true)) :=
  (intent_semantics ⟨true, false, true, false⟩ (mkRec "" "T,C" "")).2.1 (by decide)

/-- C10: intent matching tests containment of the uppercase letters
`I`/`T`/`C`/`N` only, hence is case-sensitive: a record whose intent string
is the lowercase `"i"` does not pass with Informational selected, even
though the lowercase letter itself is present as a substring. -/
theorem intent_case_sensitive (k : Keyword) :
    (intentMatch ⟨true, false, false, false⟩ k = strIncludes k.intent "I")
    ∧ (intentMatch ⟨false, true, false, false⟩ k = strIncludes k.intent "T")
    ∧ (intentMatch ⟨false, false, true, false⟩ k = strIncludes k.intent "C")
    ∧ (intentMatch ⟨false, false, false, true⟩ k = strIncludes k.intent "N")
    ∧ intentMatch ⟨true, false, false, false⟩ (mkRec "" "i" "") = false
    ∧ strIncludes "i" "i" = true := by
  refine ⟨?_, ?_, ?_, ?_, by decide, by decide⟩ <;>
    simp [intentMatch, anyIntentSelected]

/-- C2 counterexample: `parseInt("abc")` is `NaN`, and a filter state whose
only non-empty field is that unparsable minimum-volume bound rejects a record
that the all-empty state accepts — the unparsable bound is NOT treated as
absent (the claim would require the record to pass, all other dimensions
being inactive).  By contrast the CPC bounds `"Infinity"`/`"-Infinity"` DO
parse (JS `parseFloat` returns `±Infinity`) and pass every record. -/
theorem unparsable_bound_counterexample :
    parseIntJS "abc" = none
    ∧ evaluateFilter fsBadMinVolume kSample = false
    ∧ evaluateFilter emptyFilterState kSample = true
    ∧ evaluateFilter { emptyFilterState with maxCPC := "Infinity" } kSample = true
    ∧ evaluateFilter { emptyFilterState with minCPC := "-Infinity" } kSample = true :=
  ⟨by decide, by decide, by decide, by decide, by decide⟩

/-- C2 amended: a range bound string that is non-empty and yields `NaN`
(no numeric prefix for the integer bounds; neither a numeric prefix nor the
`Infinity` literal for the `parseFloat`-parsed CPC bounds) is treated as
`NaN`, not as absent: every comparison against it is false, so the affected
dimension (and hence the whole filter) rejects every record. -/
theorem unparsable_bound_rejects (fs : FilterState) (k : Keyword)
    (h : (fs.minVolume ≠ "" ∧ parseIntJS fs.minVolume = none)
       ∨ (fs.maxVolume ≠ "" ∧ parseIntJS fs.maxVolume = none)
       ∨ (fs.minKD ≠ "" ∧ parseIntJS fs.minKD = none)
       ∨ (fs.maxKD ≠ "" ∧ parseIntJS fs.maxKD = none)
       ∨ (fs.minCPC ≠ "" ∧ isInfLiteral fs.minCPC = false ∧ parseFloatJS fs.minCPC = none)
       ∨ (fs.maxCPC ≠ "" ∧ isInfLiteral fs.maxCPC = false ∧ parseFloatJS fs.maxCPC = none)
       ∨ (fs.minWordCount ≠ "" ∧ parseIntJS fs.minWordCount = none)
       ∨ (fs.maxWordCount ≠ "" ∧ parseIntJS fs.maxWordCount = none)
       ∨ (fs.minTrafficPotential ≠ "" ∧ parseIntJS fs.minTrafficPotential = none)
       ∨ (fs.maxTrafficPotential ≠ "" ∧ parseIntJS fs.maxTrafficPotential = none)) :
    evaluateFilter fs k = false := by
  rcases h with h | h | h | h | h | h | h | h | h | h
  · simp [evaluateFilter, minBoundI_nan h.1 h.2]
  · simp [evaluateFilter, maxBoundI_nan h.1 h.2]
  · simp [evaluateFilter, minBoundI_nan h.1 h.2]
  · simp [evaluateFilter, maxBoundI_nan h.1 h.2]
  · simp [evaluateFilter, minBoundF_nan h.1 h.2.1 h.2.2]
  · simp [evaluateFilter, maxBoundF_nan h.1 h.2.1 h.2.2]
  · simp [evaluateFilter, minBoundI_nan h.1 h.2]
  · simp [evaluateFilter, maxBoundI_nan h.1 h.2]
  · simp [evaluateFilter, minBoundI_nan h.1 h.2]
  · simp [evaluateFilter, maxBoundI_nan h.1 h.2]

/-- Witness for `unparsable_bound_rejects` at the concrete bad bound. -/
theorem unparsable_bound_rejects_witness :
    (fsBadMinVolume.minVolume ≠ "" ∧ parseIntJS fsBadMinVolume.minVolume = none)
    ∧ evaluateFilter fsBadMinVolume kSample = false :=
  ⟨⟨by decide, by decide⟩,
    unparsable_bound_rejects fsBadMinVolume kSample (Or.inl ⟨by decide, by decide⟩)⟩

/-- A filter state with parsable range bounds on every dimension (traffic
potential left unbounded below), used to witness the range-dimension claim. -/
def fsRange : FilterState :=
  { emptyFilterState with
      minVolume := "10", maxVolume := "20", minKD := "0", maxKD := "100",
      minCPC := "0.5", maxCPC := "2.5", minWordCount := "1", maxWordCount := "5",
      maxTrafficPotential := "1000" }

/-- C5: each of the five numeric range dimensions with bounds that are empty
or parsable passes a record iff `min ≤ value ≤ max` for that dimension's
value (parsed volume, difficulty, cost-per-click, derived word count, traffic
potential), an absent bound constraining nothing (±∞); boundary values pass
since the comparisons are non-strict. -/
theorem range_dimensions_spec (fs : FilterState) (k : Keyword)
    (h1 : fs.minVolume = "" ∨ (parseIntJS fs.minVolume).isSome)
    (h2 : fs.maxVolume = "" ∨ (parseIntJS fs.maxVolume).isSome)
    (h3 : fs.minKD = "" ∨ (parseIntJS fs.minKD).isSome)
    (h4 : fs.maxKD = "" ∨ (parseIntJS fs.maxKD).isSome)
    (h5 : fs.minCPC = "" ∨ (parseFloatJS fs.minCPC).isSome)
    (h6 : fs.maxCPC = "" ∨ (parseFloatJS fs.maxCPC).isSome)
    (h7 : fs.minWordCount = "" ∨ (parseIntJS fs.minWordCount).isSome)
    (h8 : fs.maxWordCount = "" ∨ (parseIntJS fs.maxWordCount).isSome)
    (h9 : fs.minTrafficPotential = "" ∨ (parseIntJS fs.minTrafficPotential).isSome)
    (h10 : fs.maxTrafficPotential = "" ∨ (parseIntJS fs.maxTrafficPotential).isSome) :
    (inRangeQ (parseVolume k.volume : Rat) (minBoundI fs.minVolume) (maxBoundI fs.maxVolume) = true ↔
      ((∀ n : Int, parseIntJS fs.minVolume = some n → (n : Rat) ≤ (parseVolume k.volume : Rat)) ∧
       (∀ n : Int, parseIntJS fs.maxVolume = some n → (parseVolume k.volume : Rat) ≤ (n : Rat))))
    ∧ (inRangeQ (k.kd : Rat) (minBoundI fs.minKD) (maxBoundI fs.maxKD) = true ↔
      ((∀ n : Int, parseIntJS fs.minKD = some n → (n : Rat) ≤ (k.kd : Rat)) ∧
       (∀ n : Int, parseIntJS fs.maxKD = some n → (k.kd : Rat) ≤ (n : Rat))))
    ∧ (inRangeQ k.cpc (minBoundF fs.minCPC) (maxBoundF fs.maxCPC) = true ↔
      ((∀ q : Rat, parseFloatJS fs.minCPC = some q → q ≤ k.cpc) ∧
       (∀ q : Rat, parseFloatJS fs.maxCPC = some q → k.cpc ≤ q)))
    ∧ (inRangeQ (getWordCount k.keyword : Rat) (minBoundI fs.minWordCount) (maxBoundI fs.maxWordCount) = true ↔
      ((∀ n : Int, parseIntJS fs.minWordCount = some n → (n : Rat) ≤ (getWordCount k.keyword : Rat)) ∧
       (∀ n : Int, parseIntJS fs.maxWordCount = some n → (getWordCount k.keyword : Rat) ≤ (n : Rat))))
    ∧ (inRangeQ (k.trafficPotential : Rat) (minBoundI fs.minTrafficPotential) (maxBoundI fs.maxTrafficPotential) = true ↔
      ((∀ n : Int, parseIntJS fs.minTrafficPotential = some n → (n : Rat) ≤ (k.trafficPotential : Rat)) ∧
       (∀ n : Int, parseIntJS fs.maxTrafficPotential = some n → (k.trafficPotential : Rat) ≤ (n : Rat)))) :=
  ⟨rangeI_iff _ _ _ h1 h2, rangeI_iff _ _ _ h3 h4, rangeF_iff _ _ _ h5 h6,
    rangeI_iff _ _ _ h7 h8, rangeI_iff _ _ _ h9 h10⟩

/-- Witness for `range_dimensions_spec` at a fully concrete filter state and
record; the stated conjunct is the volume dimension. -/
theorem range_dimensions_spec_witness :
    (fsRange.minVolume = "" ∨ (parseIntJS fsRange.minVolume).isSome)
    ∧ (inRangeQ (parseVolume kSample.volume : Rat) (minBoundI fsRange.minVolume) (maxBoundI fsRange.maxVolume) = true ↔
      ((∀ n : Int, parseIntJS fsRange.minVolume = some n → (n : Rat) ≤ (parseVolume kSample.volume : Rat)) ∧
       (∀ n : Int, parseIntJS fsRange.maxVolume = some n → (parseVolume kSample.volume : Rat) ≤ (n : Rat)))) :=
  ⟨by decide,
    (range_dimensions_spec fsRange kSample (by decide) (by decide) (by decide) (by decide)
      (by decide) (by decide) (by decide) (by decide) (by decide) (by decide)).1⟩

/-- `Math.round q = n` once `q + 1/2` is the integer `n`. -/
lemma jsMathRound_of_add_half {q : Rat} {n : Int} (h : q + 1 / 2 = (n : Rat)) :
    jsMathRound q = n := by
  simp only [jsMathRound, h, Int.floor_intCast]

/-- Folding `+ f k` over a list from an accumulator is the accumulator plus
the mapped sum. -/
lemma foldl_add_eq_sum (f : Keyword → Int) (l : List Keyword) (a : Int) :
    l.foldl (fun s k => s + f k) a = a + (l.map f).sum := by
  induction l generalizing a with
  | nil => simp
  | cons x xs ih => simp [ih, add_assoc]

/-- C8: the aggregator's `totalVolume` is the sum of the parsed volumes
(thousands separators stripped, unparsable strings counting 0) and
`averageKD` is the round-half-up (`⌊· + 1/2⌋`, JS `Math.round`) of the
difficulty sum over the count; both are 0 on the empty collection, and
difficulties `[10, 15]` average to 13. -/
theorem aggregator_spec (l : List Keyword) (hne : l ≠ []) :
    totalVolume l = (l.map (fun k => parseVolume k.volume)).sum
    ∧ averageKD l =
        Int.floor ((((l.map Keyword.kd).sum : Int) : Rat) / (l.length : Rat) + 1 / 2)
    ∧ totalVolume ([] : List Keyword) = 0
    ∧ averageKD ([] : List Keyword) = 0
    ∧ averageKD [kdRec 10, kdRec 15] = 13
    ∧ totalVolume [mkRec "a" "" "1,200", mkRec "b" "" "n/a"] = 1200 := by
  refine ⟨?_, ?_, by decide, by decide, ?avg, by decide⟩
  case avg =>
    have h1 : ([kdRec 10, kdRec 15] : List Keyword).foldl (fun s k => s + k.kd) 0 = 25 := by
      decide
    simp only [averageKD, h1, List.length_cons, List.length_nil]
    norm_num
    exact jsMathRound_of_add_half (by norm_num)
  · simpa using foldl_add_eq_sum (fun k => parseVolume k.volume) l 0
  · have hlen : 0 < l.length := List.length_pos.mpr hne
    have hfold : l.foldl (fun s k => s + k.kd) 0 = (l.map Keyword.kd).sum := by
      simpa using foldl_add_eq_sum Keyword.kd l 0
    simp [averageKD, jsMathRound, hlen, hfold]

/-- Witness for `aggregator_spec` on the two-record collection. -/
theorem aggregator_spec_witness :
    ([kdRec 10, kdRec 15] : List Keyword) ≠ []
    ∧ averageKD [kdRec 10, kdRec 15] =
        Int.floor (((([kdRec 10, kdRec 15].map Keyword.kd).sum : Int) : Rat) /
          (([kdRec 10, kdRec 15] : List Keyword).length : Rat) + 1 / 2) :=
  ⟨by decide, (aggregator_spec [kdRec 10, kdRec 15] (by decide)).2.1⟩

/-- Independent specification of "number of whitespace-delimited tokens":
count the maximal runs of non-whitespace characters (the flag records whether
we are currently inside a run). -/
def countRuns : List Char → Bool → Nat
  | [], _ => 0
  | c :: cs, inRun =>
    if isWsJS c then countRuns cs false
    else (if inRun then 0 else 1) + countRuns cs true

/-- The `split`-and-discard-empties computation in `getWordCount` counts
exactly the maximal non-whitespace runs (proved jointly with the same fact
for the tail of the split, which tracks being inside a run). -/
lemma splitOnP_filter_length (l : List Char) :
    ((l.splitOnP isWsJS).filter (fun r => !r.isEmpty)).length = countRuns l false
    ∧ (((l.splitOnP isWsJS).tail).filter (fun r => !r.isEmpty)).length = countRuns l true := by
  induction l with
  | nil => exact ⟨by simp [countRuns], by simp [countRuns]⟩
  | cons c cs ih =>
    by_cases hc : isWsJS c = true
    · constructor
      · simp [List.splitOnP_cons, hc, countRuns, ih.1]
      · simp [List.splitOnP_cons, hc, countRuns, ih.1]
    · obtain ⟨h, t, hht⟩ := List.exists_cons_of_ne_nil (List.splitOnP_ne_nil isWsJS cs)
      have htail : (t.filter (fun r => !r.isEmpty)).length = countRuns cs true := by
        have := ih.2
        rw [hht] at this
        simpa using this
      constructor
      · simp [List.splitOnP_cons, hc, hht, countRuns, htail, Nat.add_comm]
      · simp [List.splitOnP_cons, hc, hht, countRuns, htail]

/-- C3 counterexample: the claim says an empty or whitespace-only keyword has
word count 0, but `"".split(/\s+/)` is `[""]`, so the code derives 1. -/
theorem wordCount_blank_counterexample :
    getWordCount "" = 1 ∧ getWordCount "   " = 1 := by
  exact ⟨by decide, by decide⟩

/-- C3 amended: the derived word count is the number of maximal
whitespace-delimited tokens of the trimmed keyword when that is non-empty,
but an empty or whitespace-only keyword has word count 1 (JS splitting the
empty string yields one empty token). -/
theorem wordCount_spec (s : String) :
    getWordCount s =
      (if (trimJS s.toList).isEmpty then 1 else countRuns (trimJS s.toList) false)
    ∧ getWordCount "free trial offer" = 3
    ∧ getWordCount "  best   seo tool " = 3 := by
  refine ⟨?_, by decide, by decide⟩
  simp only [getWordCount, (splitOnP_filter_length (trimJS s.toList)).1]

/-- Sample records for the sort-stability witness: equal difficulty,
different keywords, plus a third record with a different difficulty. -/
def sRecA : Keyword := { mkRec "alpha" "" "" with kd := 7 }

/-- Second sample record with the same difficulty as `sRecA`. -/
def sRecB : Keyword := { mkRec "beta" "" "" with kd := 7 }

/-- Third sample record with a smaller difficulty. -/
def sRecC : Keyword := { mkRec "gamma" "" "" with kd := 3 }

/-- C9: the sort comparator returns 0 for every pair when no sort field is
set (and sorting then leaves the filtered list unchanged); with a field set,
descending is the negation of ascending, volume is compared via the same
parse as the filter path, and the sort is stable: two records with equal
compared values keep their relative order from the input list. -/
theorem sort_comparator_spec (f : SortField) (dir : SortDirection) (a b : Keyword)
    (l : List Keyword) :
    compareKeywords none dir a b = 0
    ∧ sortedKeywords none dir l = l
    ∧ compareKeywords (some f) .desc a b = -(compareKeywords (some f) .asc a b)
    ∧ (∀ k : Keyword, sortValue .volume k = (parseVolume k.volume : Rat))
    ∧ (List.Sublist [a, b] l → sortValue f a = sortValue f b →
        List.Sublist [a, b] (sortedKeywords (some f) dir l)) := by
  refine ⟨rfl, ?_, rfl, fun k => rfl, ?_⟩
  · exact List.mergeSort_of_sorted
      (List.pairwise_of_forall (fun x y => by simp [compareKeywords]))
  · intro hsub heq
    have trans : ∀ x y z : Keyword,
        decide (compareKeywords (some f) dir x y ≤ 0) = true →
        decide (compareKeywords (some f) dir y z ≤ 0) = true →
        decide (compareKeywords (some f) dir x z ≤ 0) = true := by
      intro x y z hxy hyz
      cases dir <;> simp only [compareKeywords, decide_eq_true_eq] at hxy hyz ⊢ <;> linarith
    have total : ∀ x y : Keyword,
        (decide (compareKeywords (some f) dir x y ≤ 0) ||
          decide (compareKeywords (some f) dir y x ≤ 0)) = true := by
      intro x y
      cases dir <;> simp only [compareKeywords, Bool.or_eq_true, decide_eq_true_eq] <;>
        rcases le_total (sortValue f x) (sortValue f y) with h | h
      · exact Or.inl (by linarith)
      · exact Or.inr (by linarith)
      · exact Or.inr (by linarith)
      · exact Or.inl (by linarith)
    have hab : decide (compareKeywords (some f) dir a b ≤ 0) = true := by
      cases dir <;> simp [compareKeywords, heq]
    exact List.pair_sublist_mergeSort trans total hab hsub

/-- Witness for `sort_comparator_spec`: the two equal-difficulty records stay
in order after sorting by difficulty. -/
theorem sort_comparator_spec_witness :
    List.Sublist [sRecA, sRecB] [sRecA, sRecB, sRecC]
    ∧ sortValue .kd sRecA = sortValue .kd sRecB
    ∧ List.Sublist [sRecA, sRecB] (sortedKeywords (some .kd) .asc [sRecA, sRecB, sRecC]) := by
  have hsub : List.Sublist [sRecA, sRecB] [sRecA, sRecB, sRecC] :=
    List.Sublist.cons₂ _ (List.Sublist.cons₂ _ (List.Sublist.cons _ List.Sublist.slnil))
  have heq : sortValue .kd sRecA = sortValue .kd sRecB := by decide
  exact ⟨hsub, heq,
    (sort_comparator_spec .kd .asc sRecA sRecB [sRecA, sRecB, sRecC]).2.2.2.2 hsub heq⟩

end KeywordApp
